import Mathlib

/-!
Verification of an ADF5355 fractional-N PLL driver (two Arduino sketches).

The driver's `double` arithmetic is modelled as exact rational arithmetic
(`ℚ`); every constant appearing in the source (10 MHz reference,
10.525 GHz target, 1 kHz channel step, the 6/13 GHz VCO band) is exactly
representable as a binary double, and the operations exercised by the
claims (comparison, multiplication by small powers of two, the divider
loop) are exact on doubles, so the rational model tracks the compiled
code on the inputs considered.  C++ `uint32_t` values are modelled as
`ℕ` with explicit reduction modulo `2 ^ 32` at each cast site.

Bus activity (SPI byte transfers, latch pulses, Arduino delays, chip
enable writes) is modelled as explicit event traces.
-/

namespace ADF5355

/-! ## USER SETTINGS block of `test.cpp` (compile-time constants) -/

def REF_IN_HZ : ℚ := 10000000          -- 10e6
def RF_OUT_HZ : ℚ := 10525000000       -- 10.525e9
def CHANNEL_STEP_HZ : ℚ := 1000        -- 1 kHz

/-- `enum class OutPower` of `test.cpp`. -/
inductive OutPower where
  | PWR_MIN
  | PWR_1
  | PWR_2
  | PWR_3
  | PWR_MAX
deriving DecidableEq, Repr

/-- The USER SETTINGS constants of `test.cpp`, gathered as a record so the
planner can be analysed as the spec's `plan(target, step, ref_config)`
contract; `defaultConfig` below is the literal block in the file. -/
structure UserConfig where
  refInHz : ℚ
  refDoubler : Bool
  refDiv2 : Bool
  rDiv : ℕ
  useRfoutB : Bool
  channelStepHz : ℚ
  outputPower : OutPower
  outputEnable : Bool
deriving DecidableEq, Repr

def defaultConfig : UserConfig :=
  { refInHz := REF_IN_HZ
    refDoubler := false
    refDiv2 := false
    rDiv := 1
    useRfoutB := true
    channelStepHz := CHANNEL_STEP_HZ
    outputPower := OutPower.PWR_MAX
    outputEnable := true }

/-- `struct PllParams` of `test.cpp` (the spec's SynthesizerParameters). -/
structure PllParams where
  pfd_hz : ℚ
  INT : ℕ
  FRAC : ℕ
  MOD : ℕ
  out_div : ℕ
  rfouta_en : Bool
  rfoutb_en : Bool
  pwr : OutPower
deriving DecidableEq, Repr

/-! ## Arithmetic primitives of the planner -/

/-- C `llround`: round half away from zero, to an integer. -/
def llround (q : ℚ) : ℤ :=
  if 0 ≤ q then ⌊q + 1 / 2⌋ else -⌊-q + 1 / 2⌋

/-- Conversion of an integer to `uint32_t` (modular, two's complement). -/
def u32 (z : ℤ) : ℕ := (z % 2 ^ 32).toNat

/-- `gcd_u32` of `test.cpp`: `while (b) { t = a % b; a = b; b = t; } return a`. -/
def gcd_u32 (a b : ℕ) : ℕ :=
  if h : b = 0 then a else gcd_u32 b (a % b)
termination_by b
decreasing_by exact Nat.mod_lt _ (Nat.pos_of_ne_zero h)

/-! ## Frequency planning (`planFrequency` of `test.cpp`) -/

def VCO_MIN : ℚ := 6000000000    -- 6.0e9, local constant in planFrequency
def VCO_MAX : ℚ := 13000000000   -- 13.0e9

/-- The divider-selection loop
`uint8_t div = 1; while ((rf_out_hz * div) < VCO_MIN && div < 64) div *= 2;`.
`d` doubles from 1 and the guard fails at the latest when `d = 64`, so the
loop runs at most 6 iterations; fuel 7 covers every guard evaluation. -/
def chooseDivGo (rf : ℚ) : ℕ → ℕ → ℕ
  | 0, d => d
  | fuel + 1, d =>
    if rf * (d : ℚ) < VCO_MIN ∧ d < 64 then chooseDivGo rf fuel (d * 2) else d

def chooseDiv (rf : ℚ) : ℕ := chooseDivGo rf 7 1

/-- The MOD computation of `planFrequency`:
`uint32_t mod = (uint32_t)llround(pfd / (step * out_div));
 if (mod < 2) mod = 2; if (mod > 0xFFFFFF) mod = 0xFFFFFF;`. -/
def planMod (pfd step : ℚ) (outDiv : ℕ) : ℕ :=
  let m0 := u32 (llround (pfd / (step * (outDiv : ℚ))))
  let m1 := if m0 < 2 then 2 else m0
  if m1 > 0xFFFFFF then 0xFFFFFF else m1

/-- PFD computation of `planFrequency`:
`ref = REF_IN_HZ * (doubler?2:1) / (div2?2:1); pfd = ref / R_DIV`. -/
def pfdOf (cfg : UserConfig) : ℚ :=
  cfg.refInHz * (if cfg.refDoubler then 2 else 1)
    / (if cfg.refDiv2 then 2 else 1) / (cfg.rDiv : ℚ)

/-- `planFrequency` of `test.cpp`, with the USER SETTINGS constants passed
through `cfg`.  The function is total exactly as in the source: no branch
returns an error, and the out-of-range VCO case only prints (modelled
separately by `planRangeErrorPrinted`). -/
def planFrequency (cfg : UserConfig) (rfOutHz : ℚ) : PllParams :=
  let pfd : ℚ := pfdOf cfg
  let div : ℕ := chooseDiv rfOutHz
  let vco : ℚ := rfOutHz * (div : ℚ)
  let N : ℚ := vco / pfd
  let mod0 : ℕ := planMod pfd cfg.channelStepHz div
  let INT0 : ℕ := u32 ⌊N⌋
  let fracF : ℚ := (N - (INT0 : ℚ)) * (mod0 : ℚ)
  let FRAC0 : ℕ := u32 (llround fracF)
  let FRAC1 : ℕ := if FRAC0 = mod0 then 0 else FRAC0
  let INT1 : ℕ := if FRAC0 = mod0 then (INT0 + 1) % 2 ^ 32 else INT0
  let g : ℕ := gcd_u32 FRAC1 mod0
  let FRAC2 : ℕ := if 1 < g then FRAC1 / g else FRAC1
  let MOD2 : ℕ := if 1 < g then mod0 / g else mod0
  { pfd_hz := pfd
    INT := INT1
    FRAC := FRAC2
    MOD := MOD2
    out_div := div
    rfouta_en := (!cfg.useRfoutB) && cfg.outputEnable
    rfoutb_en := cfg.useRfoutB && cfg.outputEnable
    pwr := cfg.outputPower }

/-- Whether `planFrequency` prints
`"ERROR: Cannot place VCO in range with available dividers."`
(its only error reaction; the guard is `vco > VCO_MAX`). -/
def planRangeErrorPrinted (rf : ℚ) : Bool :=
  decide (VCO_MAX < rf * (chooseDiv rf : ℚ))

/-! ## Bus-level traces (`pulseLE`, `writeReg`, `writeAllRegs`) -/

/-- One observable action on a device's SPI bus / latch line. -/
inductive BusEvent where
  | spiByte (b : ℕ)        -- one `spi.transfer(byte)` call
  | leWrite (level : Bool) -- `digitalWrite(PIN_LE, level)`
  | delayUs (n : ℕ)        -- `delayMicroseconds(n)`
  | delayMs (n : ℕ)        -- `delay(n)`
deriving DecidableEq, Repr

/-- `pulseLE`: LE high, 2 µs, LE low, 2 µs. -/
def pulseLETrace : List BusEvent :=
  [BusEvent.leWrite true, BusEvent.delayUs 2,
   BusEvent.leWrite false, BusEvent.delayUs 2]

/-- `writeReg`: four `transfer` calls, most significant byte first,
then `pulseLE`.  (The begin/endTransaction SPI-mode bracketing carries no
data and is omitted from the trace.) -/
def writeRegTrace (reg : ℕ) : List BusEvent :=
  [BusEvent.spiByte ((reg >>> 24) &&& 0xFF),
   BusEvent.spiByte ((reg >>> 16) &&& 0xFF),
   BusEvent.spiByte ((reg >>> 8) &&& 0xFF),
   BusEvent.spiByte ((reg >>> 0) &&& 0xFF)] ++ pulseLETrace

/-- `writeAllRegs` of `test.cpp`:
`for (int i = 12; i >= 0; --i) { writeReg(regImage[i]); delay(2); }`. -/
def writeAllRegsTrace (img : ℕ → ℕ) : List BusEvent :=
  ((List.range 13).reverse).flatMap
    (fun i => writeRegTrace (img i) ++ [BusEvent.delayMs 2])

/-- Spec-side description of one register write: the four bytes of the
word most-significant first (stated arithmetically, `w / 2^k % 2^8`),
the latch pulse, then the settle delay. -/
def specRegWriteBlock (w : ℕ) : List BusEvent :=
  [BusEvent.spiByte (w / 2 ^ 24 % 2 ^ 8), BusEvent.spiByte (w / 2 ^ 16 % 2 ^ 8),
   BusEvent.spiByte (w / 2 ^ 8 % 2 ^ 8), BusEvent.spiByte (w % 2 ^ 8),
   BusEvent.leWrite true, BusEvent.delayUs 2,
   BusEvent.leWrite false, BusEvent.delayUs 2,
   BusEvent.delayMs 2]

/-! ## Register image construction -/

/-- The base register image `regImage[13]` of `test.cpp`, by array index. -/
def regImageBase (i : ℕ) : ℕ :=
  [0x0001040C, 0x0061300B, 0x00C0000A, 0x00000009, 0x102D0428,
   0x12000007, 0x35000006, 0x00800005, 0x00000004, 0x00000003,
   0x00001002, 0x00000A41, 0x00550000].getD i 0

/-- `withAddr`: `word &= ~0xFu; word |= (r & 0x0F); return word;`. -/
def withAddr (word r : ℕ) : ℕ :=
  (word &&& 0xFFFFFFF0) ||| (r &&& 0x0F)

/-- `applyFrequencyToRegs` of `test.cpp`: every field patcher is a stub,
so the whole body is `regImage[i] = withAddr(regImage[i], i)` for
`i = 12 .. 0`. -/
def applyFrequencyToRegs (img : ℕ → ℕ) : ℕ → ℕ :=
  fun i => if i < 13 then withAddr (img i) i else img i

/-- `configureFromUserSettings` of `test.cpp`: plans, patches the image
(address bits only; the patchers are stubs), then unconditionally runs
`writeAllRegs` — there is no error branch between planning and writing. -/
def configureTrace : List BusEvent :=
  writeAllRegsTrace (applyFrequencyToRegs regImageBase)

/-- Count of SPI byte transfers in a trace (bus transactions). -/
def spiByteCount (tr : List BusEvent) : ℕ :=
  (tr.filter (fun e => match e with | BusEvent.spiByte _ => true | _ => false)).length

/-! ## Dual-board sketch (`10.525_GHz_3s_ON_3s_OFF_Sketch.cpp`) -/

inductive DeviceId where
  | A
  | B
deriving DecidableEq, Repr

/-- The fixed `regs[13]` array local to `programPLL` (index 0 holds
register 12, index 12 holds register 0). -/
def dualRegs (i : ℕ) : ℕ :=
  [0x0001040C, 0x0061300B, 0x00C0000A, 0x00000009, 0x102D0428,
   0x12000007, 0x35000006, 0x00800005, 0x00000004, 0x00000003,
   0x00001002, 0x00000A41, 0x00550000].getD i 0

/-- `programPLL(spi, pinLE, name)`, with the register array generalized to
`regs` (the source applies it to `dualRegs` for both boards):
`for (i = 0; i < 13; i++) { writeReg(spi, pinLE, regs[i]); delay(2); }`.
Each event is tagged with the device whose bus/latch line it drives. -/
def programPLLTrace (dev : DeviceId) (regs : ℕ → ℕ) : List (DeviceId × BusEvent) :=
  (List.range 13).flatMap
    (fun i => (writeRegTrace (regs i)).map (fun e => (dev, e))
              ++ [(dev, BusEvent.delayMs 2)])

/-- The bytes transferred on device `dev`'s bus, in order. -/
def busBytesOf (dev : DeviceId) (tr : List (DeviceId × BusEvent)) : List ℕ :=
  tr.filterMap (fun p =>
    if p.1 = dev then
      match p.2 with
      | BusEvent.spiByte b => some b
      | _ => none
    else none)

/-- Top-level control actions of the dual-board sketch's `loop()`. -/
inductive CtlEvent where
  | serialPrint
  | ceWrite (dev : DeviceId) (level : Bool)  -- `digitalWrite(x_CE, level)`
  | delayMs (n : ℕ)
deriving DecidableEq, Repr

/-- One pass of `loop()` of the dual-board sketch. -/
def loopTrace : List CtlEvent :=
  [CtlEvent.serialPrint,
   CtlEvent.ceWrite DeviceId.A true, CtlEvent.ceWrite DeviceId.B true,
   CtlEvent.delayMs 3000,
   CtlEvent.serialPrint,
   CtlEvent.ceWrite DeviceId.A false, CtlEvent.ceWrite DeviceId.B false,
   CtlEvent.delayMs 3000]

/-- Every chip-enable write to board A is immediately followed by the
matching chip-enable write to board B: no delay (indeed no event at all)
intervenes between the two transitions. -/
def cePairedNoDelay : List CtlEvent → Bool
  | [] => true
  | CtlEvent.ceWrite DeviceId.A v :: rest =>
    match rest with
    | CtlEvent.ceWrite DeviceId.B w :: _ => (v == w) && cePairedNoDelay rest
    | _ => false
  | _ :: rest => cePairedNoDelay rest

/-- Latch-line level after running a trace from initial level `s`. -/
def leStateAfter : List BusEvent → Bool → Bool
  | [], s => s
  | BusEvent.leWrite b :: rest, _ => leStateAfter rest b
  | _ :: rest, s => leStateAfter rest s

/-- Projection keeping only the latch-line writes of a trace. -/
def leWritesOf (tr : List BusEvent) : List Bool :=
  tr.filterMap (fun e => match e with | BusEvent.leWrite b => some b | _ => none)

/-! ## Helper lemmas -/

theorem out_div_eq_chooseDiv (cfg : UserConfig) (rf : ℚ) :
    (planFrequency cfg rf).out_div = chooseDiv rf := rfl

theorem and_byte (w : ℕ) : w &&& 0xFF = w % 2 ^ 8 := by
  have h : (0xFF : ℕ) = 2 ^ 8 - 1 := rfl
  rw [h, Nat.and_pow_two_sub_one_eq_mod]

theorem shift_and_byte (w k : ℕ) : (w >>> k) &&& 0xFF = w / 2 ^ k % 2 ^ 8 := by
  rw [and_byte, Nat.shiftRight_eq_div_pow]

theorem writeReg_block (w : ℕ) :
    writeRegTrace w ++ [BusEvent.delayMs 2] = specRegWriteBlock w := by
  simp [writeRegTrace, pulseLETrace, specRegWriteBlock, shift_and_byte, and_byte,
    Nat.shiftRight_eq_div_pow]

theorem gcd_u32_eq_gcd (b : ℕ) : ∀ a, gcd_u32 a b = Nat.gcd a b := by
  induction b using Nat.strong_induction_on with
  | _ b ih =>
    intro a
    rw [gcd_u32]
    by_cases hb : b = 0
    · simp [hb]
    · rw [dif_neg hb, ih (a % b) (Nat.mod_lt _ (Nat.pos_of_ne_zero hb)),
        Nat.gcd_comm a b, Nat.gcd_rec b a, Nat.gcd_comm (a % b) b]

theorem llround_eval (q : ℚ) (z : ℤ) (h0 : 0 ≤ q)
    (h1 : (z : ℚ) ≤ q + 1 / 2) (h2 : q + 1 / 2 < (z : ℚ) + 1) :
    llround q = z := by
  rw [llround, if_pos h0]
  exact Int.floor_eq_iff.mpr ⟨h1, h2⟩

theorem u32_eval (z : ℤ) (n : ℕ) (h : z % 2 ^ 32 = (n : ℤ)) : u32 z = n := by
  simp only [u32]
  rw [h]
  simp

theorem floor_eval (q : ℚ) (z : ℤ) (h1 : (z : ℚ) ≤ q) (h2 : q < (z : ℚ) + 1) :
    ⌊q⌋ = z :=
  Int.floor_eq_iff.mpr ⟨h1, h2⟩

theorem u32_llround_eval (q : ℚ) (n : ℕ) (h0 : 0 ≤ q)
    (h1 : (n : ℚ) ≤ q + 1 / 2) (h2 : q + 1 / 2 < (n : ℚ) + 1)
    (hn : n < 2 ^ 32) : u32 (llround q) = n := by
  rw [llround_eval q (n : ℤ) h0 (by exact_mod_cast h1) (by exact_mod_cast h2)]
  exact u32_eval _ _ (by omega)

theorem u32_floor_eval (q : ℚ) (n : ℕ)
    (h1 : (n : ℚ) ≤ q) (h2 : q < (n : ℚ) + 1)
    (hn : n < 2 ^ 32) : u32 ⌊q⌋ = n := by
  rw [floor_eval q (n : ℤ) (by exact_mod_cast h1) (by exact_mod_cast h2)]
  exact u32_eval _ _ (by omega)

/-- Evaluation scheme for `planMod` when the quotient is known. -/
theorem planMod_eval (pfd step : ℚ) (outDiv : ℕ) (m0 : ℕ)
    (h : u32 (llround (pfd / (step * (outDiv : ℚ)))) = m0) :
    planMod pfd step outDiv =
      if m0 < 2 then 2 else if m0 > 0xFFFFFF then 0xFFFFFF else m0 := by
  rw [planMod, h]
  split_ifs <;> omega

/-- Evaluation scheme for `planFrequency`, for the case without rounding
overflow (`FRAC ≠ MOD` before reduction): supplies each intermediate of
the source as an equation, and exposes the gcd reduction via `Nat.gcd`. -/
theorem planFrequency_eval (cfg : UserConfig) (rf pfd N : ℚ)
    (div mod0 INT0 FRAC0 : ℕ)
    (hpfd : pfdOf cfg = pfd)
    (hdiv : chooseDiv rf = div)
    (hN : rf * (div : ℚ) / pfd = N)
    (hmod : planMod pfd cfg.channelStepHz div = mod0)
    (hINT : u32 ⌊N⌋ = INT0)
    (hFRAC : u32 (llround ((N - (INT0 : ℚ)) * (mod0 : ℚ))) = FRAC0)
    (hne : FRAC0 ≠ mod0) :
    planFrequency cfg rf =
      { pfd_hz := pfd
        INT := INT0
        FRAC := if 1 < Nat.gcd FRAC0 mod0 then FRAC0 / Nat.gcd FRAC0 mod0 else FRAC0
        MOD := if 1 < Nat.gcd FRAC0 mod0 then mod0 / Nat.gcd FRAC0 mod0 else mod0
        out_div := div
        rfouta_en := (!cfg.useRfoutB) && cfg.outputEnable
        rfoutb_en := cfg.useRfoutB && cfg.outputEnable
        pwr := cfg.outputPower } := by
  simp only [planFrequency, hpfd, hdiv, hN, hmod, hINT, hFRAC,
    if_neg hne, gcd_u32_eq_gcd]

/-- Characterization of the divider-selection loop as nested conditionals. -/
theorem chooseDiv_eq (rf : ℚ) :
    chooseDiv rf =
      if VCO_MIN ≤ rf then 1
      else if VCO_MIN ≤ rf * 2 then 2
      else if VCO_MIN ≤ rf * 4 then 4
      else if VCO_MIN ≤ rf * 8 then 8
      else if VCO_MIN ≤ rf * 16 then 16
      else if VCO_MIN ≤ rf * 32 then 32
      else 64 := by
  show chooseDivGo rf 7 1 = _
  simp only [chooseDivGo]
  norm_num
  split_ifs <;> simp_all <;> linarith

/-- The divider loop keeps `div = 64` at 1 MHz even though
`1 MHz * 64` is still far below `VCO_MIN`. -/
theorem chooseDiv_1MHz : chooseDiv 1000000 = 64 := by
  rw [chooseDiv_eq]
  norm_num [VCO_MIN]

/-! ## Claim theorems -/

/-- C1 (amended): whenever some power-of-two divider in the device set
`{1,...,64}` reaches `VCO_MIN` (`VCO_MIN ≤ target * 64`) and the target
itself does not exceed `VCO_MAX`, `planFrequency` chooses `out_div` as
the smallest power of two with `target * out_div ≥ VCO_MIN`, and the
resulting VCO frequency lies in `[VCO_MIN, VCO_MAX]`.  (The original
claim, quantified over all positive targets, fails: see the
counterexample at 1 MHz, where no divider reaches `VCO_MIN` and the code
silently keeps `out_div = 64`.) -/
theorem planFrequency_outDiv_minimal (cfg : UserConfig) (rf : ℚ)
    (h1 : VCO_MIN ≤ rf * 64) (h2 : rf ≤ VCO_MAX) :
    (planFrequency cfg rf).out_div ∈ [1, 2, 4, 8, 16, 32, 64] ∧
    VCO_MIN ≤ rf * ((planFrequency cfg rf).out_div : ℚ) ∧
    rf * ((planFrequency cfg rf).out_div : ℚ) ≤ VCO_MAX ∧
    ∀ d ∈ [1, 2, 4, 8, 16, 32, 64], d < (planFrequency cfg rf).out_div →
      rf * (d : ℚ) < VCO_MIN := by
  rw [out_div_eq_chooseDiv, chooseDiv_eq rf]
  simp only [VCO_MIN, VCO_MAX] at h1 h2 ⊢
  split_ifs with ha hb hc hd he hf
  · refine ⟨by norm_num, by push_cast; linarith, by push_cast; linarith, ?_⟩
    intro d hd hlt
    fin_cases hd <;> norm_num at hlt
  · have ha' := not_le.mp ha
    refine ⟨by norm_num, by push_cast; linarith, by push_cast; linarith, ?_⟩
    intro d hd hlt
    fin_cases hd <;> norm_num at hlt ⊢ <;> linarith
  · have ha' := not_le.mp ha
    have hb' := not_le.mp hb
    refine ⟨by norm_num, by push_cast; linarith, by push_cast; linarith, ?_⟩
    intro d hd hlt
    fin_cases hd <;> norm_num at hlt ⊢ <;> linarith
  · have ha' := not_le.mp ha
    have hb' := not_le.mp hb
    have hc' := not_le.mp hc
    refine ⟨by norm_num, by push_cast; linarith, by push_cast; linarith, ?_⟩
    intro d hd hlt
    fin_cases hd <;> norm_num at hlt ⊢ <;> linarith
  · have ha' := not_le.mp ha
    have hb' := not_le.mp hb
    have hc' := not_le.mp hc
    have hd' := not_le.mp hd
    refine ⟨by norm_num, by push_cast; linarith, by push_cast; linarith, ?_⟩
    intro d hd hlt
    fin_cases hd <;> norm_num at hlt ⊢ <;> linarith
  · have ha' := not_le.mp ha
    have hb' := not_le.mp hb
    have hc' := not_le.mp hc
    have hd' := not_le.mp hd
    have he' := not_le.mp he
    refine ⟨by norm_num, by push_cast; linarith, by push_cast; linarith, ?_⟩
    intro d hd hlt
    fin_cases hd <;> norm_num at hlt ⊢ <;> linarith
  · have ha' := not_le.mp ha
    have hb' := not_le.mp hb
    have hc' := not_le.mp hc
    have hd' := not_le.mp hd
    have he' := not_le.mp he
    have hf' := not_le.mp hf
    refine ⟨by norm_num, by push_cast; linarith, by push_cast; linarith, ?_⟩
    intro d hd hlt
    fin_cases hd <;> norm_num at hlt ⊢ <;> linarith

/-- Witness for C1 at the file's own target 10.525 GHz. -/
theorem planFrequency_outDiv_minimal_witness :
    VCO_MIN ≤ RF_OUT_HZ * 64 ∧ RF_OUT_HZ ≤ VCO_MAX ∧
    VCO_MIN ≤ RF_OUT_HZ * ((planFrequency defaultConfig RF_OUT_HZ).out_div : ℚ) ∧
    RF_OUT_HZ * ((planFrequency defaultConfig RF_OUT_HZ).out_div : ℚ) ≤ VCO_MAX := by
  have h := planFrequency_outDiv_minimal defaultConfig RF_OUT_HZ
    (by norm_num [VCO_MIN, RF_OUT_HZ]) (by norm_num [VCO_MAX, RF_OUT_HZ])
  exact ⟨by norm_num [VCO_MIN, RF_OUT_HZ], by norm_num [VCO_MAX, RF_OUT_HZ],
    h.2.1, h.2.2.1⟩

/-- C1 counterexample: at a valid (positive) target of 1 MHz the code
chooses `out_div = 64`, yet `1 MHz * 64 = 64 MHz` is far below `VCO_MIN`:
no power of two up to the device maximum reaches the VCO band, so the
chosen divider satisfies neither the "smallest such that
`target * out_div ≥ VCO_MIN`" description nor the claimed band membership. -/
theorem planFrequency_outDiv_claim_counterexample :
    (planFrequency defaultConfig 1000000).out_div = 64 ∧
    (1000000 : ℚ) * ((planFrequency defaultConfig 1000000).out_div : ℚ) < VCO_MIN := by
  rw [out_div_eq_chooseDiv, chooseDiv_1MHz]
  norm_num [VCO_MIN]

/-- C4: with the file's user settings (10 MHz reference, no doubler, no
divide-by-two, R = 1, channel step 1 kHz) and target 10.525 GHz,
`planFrequency` yields `pfd_hz = 10e6`, `out_div = 1`, `N = 1052.5`,
`INT = 1052`, and after gcd reduction `FRAC = 1`, `MOD = 2`. -/
theorem planFrequency_concrete_10525 :
    (planFrequency defaultConfig RF_OUT_HZ).pfd_hz = 10000000 ∧
    (planFrequency defaultConfig RF_OUT_HZ).out_div = 1 ∧
    RF_OUT_HZ * ((planFrequency defaultConfig RF_OUT_HZ).out_div : ℚ) /
      (planFrequency defaultConfig RF_OUT_HZ).pfd_hz = 2105 / 2 ∧
    (planFrequency defaultConfig RF_OUT_HZ).INT = 1052 ∧
    (planFrequency defaultConfig RF_OUT_HZ).FRAC = 1 ∧
    (planFrequency defaultConfig RF_OUT_HZ).MOD = 2 := by
  have hplan := planFrequency_eval defaultConfig RF_OUT_HZ 10000000 (2105 / 2)
    1 10000 1052 5000
    (by norm_num [pfdOf, defaultConfig, REF_IN_HZ])
    (by rw [chooseDiv_eq]; norm_num [VCO_MIN, RF_OUT_HZ])
    (by norm_num [RF_OUT_HZ])
    (by
      rw [planMod_eval _ _ _ 10000
        (u32_llround_eval _ 10000
          (by norm_num [defaultConfig, CHANNEL_STEP_HZ])
          (by norm_num [defaultConfig, CHANNEL_STEP_HZ])
          (by norm_num [defaultConfig, CHANNEL_STEP_HZ]) (by norm_num))]
      norm_num)
    (u32_floor_eval _ 1052 (by norm_num) (by norm_num) (by norm_num))
    (u32_llround_eval _ 5000 (by norm_num) (by norm_num) (by norm_num)
      (by norm_num))
    (by norm_num)
  rw [hplan]
  norm_num [RF_OUT_HZ]

/-- C3: at target 12 GHz (an exact integer multiple of the PFD, so the
raw fraction is `FRAC = 0`), `gcd_u32 0 mod = mod > 1` and the reduction
step divides `MOD` down to 1, violating the claimed invariant `MOD ≥ 2`
that the earlier clamp (`if (mod < 2) mod = 2`) establishes. -/
theorem planFrequency_mod_one_at_12GHz :
    (planFrequency defaultConfig 12000000000).FRAC = 0 ∧
    (planFrequency defaultConfig 12000000000).MOD = 1 ∧
    (planFrequency defaultConfig 12000000000).MOD < 2 := by
  have hplan := planFrequency_eval defaultConfig 12000000000 10000000 1200
    1 10000 1200 0
    (by norm_num [pfdOf, defaultConfig, REF_IN_HZ])
    (by rw [chooseDiv_eq]; norm_num [VCO_MIN])
    (by norm_num)
    (by
      rw [planMod_eval _ _ _ 10000
        (u32_llround_eval _ 10000
          (by norm_num [defaultConfig, CHANNEL_STEP_HZ])
          (by norm_num [defaultConfig, CHANNEL_STEP_HZ])
          (by norm_num [defaultConfig, CHANNEL_STEP_HZ]) (by norm_num))]
      norm_num)
    (u32_floor_eval _ 1200 (by norm_num) (by norm_num) (by norm_num))
    (u32_llround_eval _ 0 (by norm_num) (by norm_num) (by norm_num)
      (by norm_num))
    (by norm_num)
  rw [hplan]
  norm_num

/-- C2: at target 1 MHz no output divider (1..64, powers of two) brings
the VCO into `[VCO_MIN, VCO_MAX]`, yet `planFrequency` does not fail: it
keeps `out_div = 64` with `vco = 64 MHz` below `VCO_MIN`, does not even
print its ERROR line (whose guard only checks `vco > VCO_MAX`), returns a
fully populated parameter set, and `configureFromUserSettings` still
issues all 52 bus byte transfers (13 registers × 4 bytes). -/
theorem planFrequency_no_fail_closed :
    (planFrequency defaultConfig 1000000).out_div = 64 ∧
    (1000000 : ℚ) * 64 < VCO_MIN ∧
    planRangeErrorPrinted 1000000 = false ∧
    planFrequency defaultConfig 1000000 =
      { pfd_hz := 10000000, INT := 6, FRAC := 31, MOD := 78, out_div := 64,
        rfouta_en := false, rfoutb_en := true, pwr := OutPower.PWR_MAX } ∧
    spiByteCount configureTrace = 52 := by
  have hdiv : chooseDiv 1000000 = 64 := by
    rw [chooseDiv_eq]; norm_num [VCO_MIN]
  have hplan := planFrequency_eval defaultConfig 1000000 10000000 (32 / 5)
    64 156 6 62
    (by norm_num [pfdOf, defaultConfig, REF_IN_HZ])
    hdiv
    (by norm_num)
    (by
      rw [planMod_eval _ _ _ 156
        (u32_llround_eval _ 156
          (by norm_num [defaultConfig, CHANNEL_STEP_HZ])
          (by norm_num [defaultConfig, CHANNEL_STEP_HZ])
          (by norm_num [defaultConfig, CHANNEL_STEP_HZ]) (by norm_num))]
      norm_num)
    (u32_floor_eval _ 6 (by norm_num) (by norm_num) (by norm_num))
    (u32_llround_eval _ 62 (by norm_num) (by norm_num) (by norm_num)
      (by norm_num))
    (by norm_num)
  refine ⟨by rw [hplan], by norm_num [VCO_MIN], ?_,
    by rw [hplan]; norm_num [defaultConfig], by decide⟩
  simp only [planRangeErrorPrinted, hdiv, decide_eq_false_iff_not]
  norm_num [VCO_MAX]

/-- C7: after `applyFrequencyToRegs` patches the base image, every word's
low 4 address bits equal its own index, and all higher bits are inherited
unchanged from the base template (no field patcher writes anything). -/
theorem applyFrequencyToRegs_addr_and_frame (r : Fin 13) :
    (applyFrequencyToRegs regImageBase r) &&& 0xF = (r : ℕ) ∧
    (applyFrequencyToRegs regImageBase r) >>> 4 = regImageBase r >>> 4 := by
  revert r
  decide

/-- C9: in the dual-board duty-cycle loop, each chip-enable transition of
board A is immediately followed by the matching transition of board B —
no delay call (or any other action) intervenes — and both an ON and an
OFF transition occur. -/
theorem loop_ce_transitions_back_to_back :
    cePairedNoDelay loopTrace = true ∧
    CtlEvent.ceWrite DeviceId.A true ∈ loopTrace ∧
    CtlEvent.ceWrite DeviceId.A false ∈ loopTrace := by
  refine ⟨by decide, by decide, by decide⟩

/-- C10: the latch pulse is exactly high, hold, low, hold; a register
write drives LE high then low exactly once (high only during the pulse),
and whatever the initial latch level, every register write completes with
LE driven low. -/
theorem writeReg_leaves_le_low (w : ℕ) (s : Bool) :
    pulseLETrace = [BusEvent.leWrite true, BusEvent.delayUs 2,
                    BusEvent.leWrite false, BusEvent.delayUs 2] ∧
    leWritesOf (writeRegTrace w) = [true, false] ∧
    leStateAfter (writeRegTrace w) s = false := by
  refine ⟨rfl, rfl, rfl⟩

/-- C6 (amended): `planFrequency` computes
`mod = (uint32_t)llround(pfd / (step * out_div))` — i.e. the rounded
quotient truncated to 32 bits — clamped to `[2, 0xFFFFFF]`; and the
clamping is silent: the planned parameters depend on the requested
channel step only through the clamped `mod`, so a clamped request is
indistinguishable from an unclamped one in the caller-visible output
(nothing is reported).  (The original claim fails twice: the 32-bit
truncation precedes the clamp, and no deviation is reported — see the
counterexample.) -/
theorem planMod_clamped_and_silent (pfd step : ℚ) (outDiv : ℕ)
    (hstep : 0 < step) :
    planMod pfd step outDiv
      = min 0xFFFFFF (max 2 (u32 (llround (pfd / (step * (outDiv : ℚ)))))) ∧
    ∀ (cfg : UserConfig) (rf s1 s2 : ℚ),
      planMod (pfdOf cfg) s1 (chooseDiv rf)
          = planMod (pfdOf cfg) s2 (chooseDiv rf) →
      planFrequency { cfg with channelStepHz := s1 } rf
        = planFrequency { cfg with channelStepHz := s2 } rf := by
  constructor
  · rw [planMod]
    split_ifs <;> omega
  · intro cfg rf s1 s2 hmod
    have e1 : pfdOf { cfg with channelStepHz := s1 } = pfdOf cfg := rfl
    have e2 : pfdOf { cfg with channelStepHz := s2 } = pfdOf cfg := rfl
    simp only [planFrequency, e1, e2]
    rw [hmod]

/-- Witness for C6 at the file's own settings (PFD 10 MHz, step 1 kHz,
`out_div = 1`). -/
theorem planMod_clamped_and_silent_witness :
    (0 : ℚ) < 1000 ∧
    planMod 10000000 1000 1
      = min 0xFFFFFF (max 2 (u32 (llround ((10000000 : ℚ) / (1000 * ((1 : ℕ) : ℚ)))))) :=
  ⟨by norm_num, (planMod_clamped_and_silent 10000000 1000 1 (by norm_num)).1⟩

/-- C6 counterexample.  First, the claimed formula
`mod = clamp(round(pfd / (step * out_div)), 2, MOD_MAX)` is wrong: with
PFD 10 MHz and channel step `10 MHz / 2^33` the rounded quotient is
`2^33`, whose clamp would be `0xFFFFFF`, but the `(uint32_t)` cast wraps
`2^33` to 0 first and the code yields `mod = 2`.  Second, nothing is
reported when the clamp does change the value: steps `10 MHz / 16777215`
(rounds to `0xFFFFFF`, unclamped) and `10 MHz / 33554430` (rounds to
`2 * 0xFFFFFF`, clamped down to `0xFFFFFF`) produce byte-for-byte
identical planned parameters, so the caller cannot see the deviation. -/
theorem planMod_claim_counterexample :
    planMod 10000000 ((10000000 : ℚ) / 2 ^ 33) 1 = 2 ∧
    (Int.toNat (llround ((10000000 : ℚ) / (((10000000 : ℚ) / 2 ^ 33) * 1))))
        ⊓ 0xFFFFFF ⊔ 2 ≠ 2 ∧
    planFrequency { defaultConfig with channelStepHz := (10000000 : ℚ) / 16777215 }
        RF_OUT_HZ
      = planFrequency { defaultConfig with channelStepHz := (10000000 : ℚ) / 33554430 }
        RF_OUT_HZ ∧
    (Int.toNat (llround ((10000000 : ℚ) / (((10000000 : ℚ) / 16777215) * 1))))
        ≤ 0xFFFFFF ∧
    0xFFFFFF <
      (Int.toNat (llround ((10000000 : ℚ) / (((10000000 : ℚ) / 33554430) * 1)))) := by
  have hr33 : llround ((10000000 : ℚ) / (((10000000 : ℚ) / 2 ^ 33) * 1)) = 2 ^ 33 := by
    apply llround_eval <;> norm_num
  have hr1 : llround ((10000000 : ℚ) / (((10000000 : ℚ) / 16777215) * 1)) = 16777215 := by
    apply llround_eval <;> norm_num
  have hr2 : llround ((10000000 : ℚ) / (((10000000 : ℚ) / 33554430) * 1)) = 33554430 := by
    apply llround_eval <;> norm_num
  refine ⟨?_, ?_, ?_, ?_, ?_⟩
  · rw [planMod_eval _ _ _ 0]
    · norm_num
    · rw [show ((10000000 : ℚ) / (((10000000 : ℚ) / 2 ^ 33) * ((1 : ℕ) : ℚ)))
            = (10000000 : ℚ) / (((10000000 : ℚ) / 2 ^ 33) * 1) by norm_num, hr33]
      exact u32_eval _ _ (by decide)
  · rw [hr33]
    norm_num
  · have h1 := planFrequency_eval
      { defaultConfig with channelStepHz := (10000000 : ℚ) / 16777215 }
      RF_OUT_HZ 10000000 (2105 / 2) 1 16777215 1052 8388608
      (by norm_num [pfdOf, defaultConfig, REF_IN_HZ])
      (by rw [chooseDiv_eq]; norm_num [VCO_MIN, RF_OUT_HZ])
      (by norm_num [RF_OUT_HZ])
      (by
        rw [planMod_eval _ _ _ 16777215
          (u32_llround_eval _ 16777215
            (by norm_num [defaultConfig]) (by norm_num [defaultConfig])
            (by norm_num [defaultConfig]) (by norm_num))]
        norm_num)
      (u32_floor_eval _ 1052 (by norm_num) (by norm_num) (by norm_num))
      (u32_llround_eval _ 8388608 (by norm_num) (by norm_num) (by norm_num)
        (by norm_num))
      (by norm_num)
    have h2 := planFrequency_eval
      { defaultConfig with channelStepHz := (10000000 : ℚ) / 33554430 }
      RF_OUT_HZ 10000000 (2105 / 2) 1 16777215 1052 8388608
      (by norm_num [pfdOf, defaultConfig, REF_IN_HZ])
      (by rw [chooseDiv_eq]; norm_num [VCO_MIN, RF_OUT_HZ])
      (by norm_num [RF_OUT_HZ])
      (by
        rw [planMod_eval _ _ _ 33554430
          (u32_llround_eval _ 33554430
            (by norm_num [defaultConfig]) (by norm_num [defaultConfig])
            (by norm_num [defaultConfig]) (by norm_num))]
        norm_num)
      (u32_floor_eval _ 1052 (by norm_num) (by norm_num) (by norm_num))
      (u32_llround_eval _ 8388608 (by norm_num) (by norm_num) (by norm_num)
        (by norm_num))
      (by norm_num)
    rw [h1, h2]
  · rw [hr1]
    norm_num
  · rw [hr2]
    norm_num

/-- C5: for every 13-word register image of in-range 32-bit words,
`writeAllRegs` emits exactly the sequence: register 12's block first down
to register 0's block last, where each block is the four bytes of the
word most-significant first, the latch pulse, and the settle delay; and
the four bytes, most-significant first, reconstruct the word exactly. -/
theorem writeAllRegs_descending_msb_first (img : ℕ → ℕ)
    (h : ∀ i : Fin 13, img (i : ℕ) < 2 ^ 32) :
    writeAllRegsTrace img =
      specRegWriteBlock (img 12) ++ specRegWriteBlock (img 11) ++
      specRegWriteBlock (img 10) ++ specRegWriteBlock (img 9) ++
      specRegWriteBlock (img 8) ++ specRegWriteBlock (img 7) ++
      specRegWriteBlock (img 6) ++ specRegWriteBlock (img 5) ++
      specRegWriteBlock (img 4) ++ specRegWriteBlock (img 3) ++
      specRegWriteBlock (img 2) ++ specRegWriteBlock (img 1) ++
      specRegWriteBlock (img 0) ∧
    ∀ i : Fin 13,
      img i / 2 ^ 24 % 2 ^ 8 * 2 ^ 24 + img i / 2 ^ 16 % 2 ^ 8 * 2 ^ 16 +
        img i / 2 ^ 8 % 2 ^ 8 * 2 ^ 8 + img i % 2 ^ 8 = img i := by
  constructor
  · rw [writeAllRegsTrace,
      show (List.range 13).reverse = [12, 11, 10, 9, 8, 7, 6, 5, 4, 3, 2, 1, 0]
        from rfl]
    simp [← writeReg_block, List.append_assoc]
  · intro i
    have hi := h i
    omega

/-- Witness for C5 at the concrete base register image of `test.cpp`. -/
theorem writeAllRegs_descending_msb_first_witness :
    writeAllRegsTrace regImageBase =
      specRegWriteBlock (regImageBase 12) ++ specRegWriteBlock (regImageBase 11) ++
      specRegWriteBlock (regImageBase 10) ++ specRegWriteBlock (regImageBase 9) ++
      specRegWriteBlock (regImageBase 8) ++ specRegWriteBlock (regImageBase 7) ++
      specRegWriteBlock (regImageBase 6) ++ specRegWriteBlock (regImageBase 5) ++
      specRegWriteBlock (regImageBase 4) ++ specRegWriteBlock (regImageBase 3) ++
      specRegWriteBlock (regImageBase 2) ++ specRegWriteBlock (regImageBase 1) ++
      specRegWriteBlock (regImageBase 0) :=
  (writeAllRegs_descending_msb_first regImageBase (by decide)).1

/-- C8: programming the same register image into the two boards produces
byte-identical bus transaction sequences on each board's bus: the bytes
depend only on the image, never on which device is targeted. -/
theorem programPLL_device_independent (regs : ℕ → ℕ) :
    busBytesOf DeviceId.A (programPLLTrace DeviceId.A regs) =
    busBytesOf DeviceId.B (programPLLTrace DeviceId.B regs) := rfl

end ADF5355
